import Mathlib

/-!
Shallow embedding of the libjingle relay port (talk/p2p/base/relayport.cc):
the RelayPort / RelayEntry / RelayConnection / AllocateRequest state machines,
with theorems checking the natural-language specification against the code.

External collaborators (STUN message parsing, sockets, the message loop) are
modelled at their interface: parsed STUN messages are records of the attributes
the code reads, socket operations return oracle-supplied results, and timer or
socket events are elements of an event type folded over a state.
-/

/-- A network address (IP and port). The default-constructed (nil)
talk_base SocketAddress is modelled as ip 0, port 0. -/
structure SocketAddress where
  ip : Nat
  port : Nat
deriving DecidableEq, Repr

/-- The nil (default-constructed) socket address. -/
def SocketAddress.nilAddr : SocketAddress := ⟨0, 0⟩

/-- SocketAddress::IsNil: true for the default-constructed address. -/
def SocketAddress.IsNil (a : SocketAddress) : Bool := a = SocketAddress.nilAddr

/-- ProtocolType enum (PROTO_UDP = 0, PROTO_TCP = 1, PROTO_SSLTCP = 2). -/
inductive ProtocolType where
  | PROTO_UDP
  | PROTO_TCP
  | PROTO_SSLTCP
deriving DecidableEq, Repr

/-- ProtocolAddress: a server address together with the transport protocol. -/
structure ProtocolAddress where
  address : SocketAddress
  proto : ProtocolType
deriving DecidableEq, Repr

/-- Modelled from the spec: TURN_MAGIC_COOKIE_VALUE, the fixed 4-byte sentinel
declared in stun.h (a header that is not part of this repository; the spec
fixes its size at 4 bytes). -/
def TURN_MAGIC_COOKIE_VALUE : List Nat := [0x72, 0xc6, 0x4b, 0xc6]

/-- RelayPort::HasMagicCookie: a packet carries the magic cookie when it is at
least 24 + sizeof(cookie) bytes long and the bytes at offset 24 equal the
cookie (std::memcmp over sizeof(TURN_MAGIC_COOKIE_VALUE) bytes). -/
def RelayPort.HasMagicCookie (data : List Nat) : Bool :=
  if data.length < 24 + TURN_MAGIC_COOKIE_VALUE.length then
    false
  else
    (data.drop 24).take TURN_MAGIC_COOKIE_VALUE.length = TURN_MAGIC_COOKIE_VALUE

/-- A STUN address attribute as read back from the external parsing layer:
the family byte plus IP and port. -/
structure StunAddrAttr where
  family : Nat
  ip : Nat
  port : Nat
deriving DecidableEq, Repr

/-- STUN message types the relay entry distinguishes. -/
inductive StunType where
  | STUN_ALLOCATE_REQUEST
  | STUN_ALLOCATE_RESPONSE
  | STUN_SEND_REQUEST
  | STUN_SEND_RESPONSE
  | STUN_DATA_INDICATION
  | otherType (n : Nat)
deriving DecidableEq, Repr

/-- A parsed inbound STUN message, restricted to the attributes
RelayEntry::OnReadPacket reads. -/
structure StunMsg where
  type : StunType
  optionsAttr : Option Nat
  sourceAddress2 : Option StunAddrAttr
  dataAttr : Option (List Nat)
deriving DecidableEq, Repr

/-- The state of one RelayConnection: the socket it owns (identified by a
numeric id) and the ProtocolAddress it was opened against. -/
structure RelayConnectionState where
  socketId : Nat
  protocolAddress : ProtocolAddress
deriving DecidableEq, Repr

/-- The state of one RelayEntry (the fields of the C++ class). -/
structure RelayEntryState where
  ext_addr : SocketAddress
  server_index : Nat
  connected : Bool
  locked : Bool
  current_connection : Option RelayConnectionState
deriving DecidableEq, Repr

/-- Externally observable actions an entry performs (calls into the port, the
socket or the message loop). -/
inductive RelayAction where
  | deliverToPort (data : List Nat) (remote : SocketAddress) (proto : ProtocolType)
  | sendAllocate (delay : Nat)
  | postConnectTimeout (delay : Nat)
  | signalConnectFailure (pa : ProtocolAddress)
  | signalSoftTimeout (pa : ProtocolAddress)
  | setRelatedAddress (a : SocketAddress)
  | addExternalAddress (pa : ProtocolAddress)
  | setReady
deriving DecidableEq, Repr

/-- Timing constants from relayport.cc. -/
def kKeepAliveDelay : Nat := 10 * 60 * 1000

/-- Retry window for allocate error responses (ICE says 50 secs). -/
def kRetryTimeout : Nat := 50 * 1000

/-- Soft connect timeout for TCP and SSLTCP attempts. -/
def kSoftConnectTimeoutMs : Nat := 3 * 1000

/-- RelayEntry::OnReadPacket. Parsing of raw bytes into a STUN message
(RelayMessage::Read) and matching against outstanding transactions
(StunRequestManager::CheckResponse) are external collaborators, passed in as
functions. Returns the updated entry state and the actions performed. -/
def RelayEntry.OnReadPacket (s : RelayEntryState) (socketId : Nat)
    (data : List Nat)
    (msgRead : List Nat → Option StunMsg)
    (checkResponse : StunMsg → Bool) :
    RelayEntryState × List RelayAction :=
  match s.current_connection with
  | none => (s, [])
  | some conn =>
    if socketId ≠ conn.socketId then
      (s, [])
    else if RelayPort.HasMagicCookie data = false then
      if s.locked then
        (s, [RelayAction.deliverToPort data s.ext_addr ProtocolType.PROTO_UDP])
      else
        (s, [])
    else
      match msgRead data with
      | none => (s, [])
      | some msg =>
        if checkResponse msg then
          (s, [])
        else if msg.type = StunType.STUN_SEND_RESPONSE then
          match msg.optionsAttr with
          | some v => if v % 2 = 1 then ({ s with locked := true }, []) else (s, [])
          | none => (s, [])
        else if msg.type ≠ StunType.STUN_DATA_INDICATION then
          (s, [])
        else
          match msg.sourceAddress2 with
          | none => (s, [])
          | some a =>
            if a.family ≠ 1 then
              (s, [])
            else
              match msg.dataAttr with
              | none => (s, [])
              | some d =>
                (s, [RelayAction.deliverToPort d ⟨a.ip, a.port⟩ ProtocolType.PROTO_UDP])

/-- Helper: on the current connection, a packet without the magic cookie is
delivered raw iff the entry is locked, and the state is unchanged. -/
theorem onReadPacket_no_cookie (s : RelayEntryState) (conn : RelayConnectionState)
    (data : List Nat) (msgRead : List Nat → Option StunMsg)
    (checkResponse : StunMsg → Bool)
    (hconn : s.current_connection = some conn)
    (hcookie : RelayPort.HasMagicCookie data = false) :
    RelayEntry.OnReadPacket s conn.socketId data msgRead checkResponse =
      (s, if s.locked then
            [RelayAction.deliverToPort data s.ext_addr ProtocolType.PROTO_UDP]
          else []) := by
  unfold RelayEntry.OnReadPacket
  rw [hconn]
  simp [hcookie]
  by_cases hl : s.locked <;> simp [hl]

/-- C1: for an inbound packet on the socket of the current connection that
does not carry the magic cookie at offset 24: when the entry is locked the
payload is delivered unchanged to the port with the entry's ext_addr and
protocol UDP; when the entry is not locked it is dropped with no delivery.
In both cases the entry state is unchanged. -/
theorem c1_no_cookie_locked_delivers (s : RelayEntryState)
    (conn : RelayConnectionState) (data : List Nat)
    (msgRead : List Nat → Option StunMsg) (checkResponse : StunMsg → Bool)
    (hconn : s.current_connection = some conn)
    (hcookie : RelayPort.HasMagicCookie data = false) :
    (s.locked = true →
      RelayEntry.OnReadPacket s conn.socketId data msgRead checkResponse =
        (s, [RelayAction.deliverToPort data s.ext_addr ProtocolType.PROTO_UDP])) ∧
    (s.locked = false →
      RelayEntry.OnReadPacket s conn.socketId data msgRead checkResponse =
        (s, [])) := by
  have h := onReadPacket_no_cookie s conn data msgRead checkResponse hconn hcookie
  constructor
  · intro hl
    rw [h, hl]
    simp
  · intro hl
    rw [h, hl]
    simp

/-- Sample connection used by concrete witnesses. -/
def sampleConn : RelayConnectionState :=
  ⟨1, ⟨⟨10, 3478⟩, ProtocolType.PROTO_UDP⟩⟩

/-- Sample locked entry used by concrete witnesses. -/
def sampleLockedEntry : RelayEntryState :=
  ⟨⟨7, 8⟩, 0, true, true, some sampleConn⟩

/-- Witness for C1 at a concrete locked entry and a concrete 3-byte packet. -/
theorem c1_no_cookie_locked_delivers_witness :
    RelayEntry.OnReadPacket sampleLockedEntry 1 [1, 2, 3]
        (fun _ => none) (fun _ => false) =
      (sampleLockedEntry,
        [RelayAction.deliverToPort [1, 2, 3] ⟨7, 8⟩ ProtocolType.PROTO_UDP]) := by
  have h := (c1_no_cookie_locked_delivers sampleLockedEntry sampleConn [1, 2, 3]
    (fun _ => none) (fun _ => false) rfl (by decide)).1 rfl
  exact h

/-- C10: an inbound packet shorter than 24 + sizeof(TURN_MAGIC_COOKIE_VALUE)
bytes (28 bytes for the 4-byte cookie) never has the magic cookie, so on the
current connection it is treated as unwrapped payload for any STUN parser and
any transaction matcher: delivered (ext_addr, UDP) iff locked, else dropped,
and never parsed as STUN (the result does not depend on msgRead or
checkResponse). -/
theorem c10_short_packet_never_stun (s : RelayEntryState)
    (conn : RelayConnectionState) (data : List Nat)
    (hconn : s.current_connection = some conn)
    (hshort : data.length < 24 + TURN_MAGIC_COOKIE_VALUE.length) :
    RelayPort.HasMagicCookie data = false ∧
    ∀ (msgRead : List Nat → Option StunMsg) (checkResponse : StunMsg → Bool),
      RelayEntry.OnReadPacket s conn.socketId data msgRead checkResponse =
        (s, if s.locked then
              [RelayAction.deliverToPort data s.ext_addr ProtocolType.PROTO_UDP]
            else []) := by
  have hcookie : RelayPort.HasMagicCookie data = false := by
    unfold RelayPort.HasMagicCookie
    simp [hshort]
  refine ⟨hcookie, ?_⟩
  intro msgRead checkResponse
  exact onReadPacket_no_cookie s conn data msgRead checkResponse hconn hcookie

/-- Witness for C10 at a concrete 27-byte packet on a locked entry. -/
theorem c10_short_packet_never_stun_witness :
    RelayPort.HasMagicCookie (List.replicate 27 0) = false ∧
    RelayEntry.OnReadPacket sampleLockedEntry 1 (List.replicate 27 0)
        (fun _ => some ⟨StunType.STUN_SEND_RESPONSE, some 1, none, none⟩)
        (fun _ => true) =
      (sampleLockedEntry,
        [RelayAction.deliverToPort (List.replicate 27 0) ⟨7, 8⟩
          ProtocolType.PROTO_UDP]) := by
  have h := c10_short_packet_never_stun sampleLockedEntry sampleConn
    (List.replicate 27 0) rfl (by decide)
  refine ⟨h.1, ?_⟩
  have h2 := h.2 (fun _ => some ⟨StunType.STUN_SEND_RESPONSE, some 1, none, none⟩)
    (fun _ => true)
  simpa [sampleLockedEntry] using h2

/-- The STUN Send request RelayEntry::SendTo builds on the wrapped path,
restricted to the attributes the code adds, in order: MAGIC-COOKIE, USERNAME,
DESTINATION-ADDRESS, optionally OPTIONS, DATA. -/
structure SendRequestMsg where
  type : StunType
  magicCookie : List Nat
  username : List Nat
  destinationAddress : SocketAddress
  optionsAttr : Option Nat
  dataAttr : List Nat
deriving DecidableEq, Repr

/-- What RelayEntry::SendTo writes to the socket: either the raw payload
(fast path) or an encoded STUN Send request (wrapped path). -/
inductive WireSend where
  | raw (data : List Nat)
  | wrapped (msg : SendRequestMsg)
deriving DecidableEq, Repr

/-- RelayEntry::SendTo, data-plane content. If the entry is locked and the
destination equals ext_addr, the payload goes out raw; otherwise it is wrapped
in a STUN Send request whose OPTIONS attribute (value 0x1) is present exactly
when the destination equals ext_addr. -/
def RelayEntry.SendTo (s : RelayEntryState) (username : List Nat)
    (data : List Nat) (addr : SocketAddress) : WireSend :=
  if s.locked = true ∧ s.ext_addr = addr then
    WireSend.raw data
  else
    WireSend.wrapped
      { type := StunType.STUN_SEND_REQUEST
        magicCookie := TURN_MAGIC_COOKIE_VALUE
        username := username
        destinationAddress := addr
        optionsAttr := if s.ext_addr = addr then some 1 else none
        dataAttr := data }

/-- C2: on the wrapped (STUN Send) path the encoded request carries
OPTIONS = 0x1 iff the destination equals the entry's ext_addr; and when the
entry is locked and the destination equals ext_addr, the bytes are sent raw
with no STUN wrapping. -/
theorem c2_send_options_iff_ext_addr (s : RelayEntryState) (username : List Nat)
    (data : List Nat) (addr : SocketAddress) :
    (∀ msg : SendRequestMsg,
      RelayEntry.SendTo s username data addr = WireSend.wrapped msg →
        (msg.optionsAttr = some 1 ↔ addr = s.ext_addr)) ∧
    (s.locked = true → addr = s.ext_addr →
      RelayEntry.SendTo s username data addr = WireSend.raw data) := by
  constructor
  · intro msg hmsg
    unfold RelayEntry.SendTo at hmsg
    by_cases hfast : s.locked = true ∧ s.ext_addr = addr
    · simp [hfast] at hmsg
    · simp only [if_neg hfast, WireSend.wrapped.injEq] at hmsg
      subst hmsg
      by_cases heq : s.ext_addr = addr
      · simp [heq]
      · simp [heq]
        intro h
        exact heq h.symm
  · intro hl heq
    unfold RelayEntry.SendTo
    simp [hl, heq.symm]

/-- Witness for C2 at a concrete unlocked entry whose ext_addr equals the
destination (wrapped path with OPTIONS) and at a concrete locked entry
(raw path). -/
theorem c2_send_options_iff_ext_addr_witness :
    (RelayEntry.SendTo ⟨⟨7, 8⟩, 0, true, false, some sampleConn⟩ [9] [1, 2] ⟨7, 8⟩ =
      WireSend.wrapped
        { type := StunType.STUN_SEND_REQUEST
          magicCookie := TURN_MAGIC_COOKIE_VALUE
          username := [9]
          destinationAddress := ⟨7, 8⟩
          optionsAttr := some 1
          dataAttr := [1, 2] }) ∧
    RelayEntry.SendTo sampleLockedEntry [9] [1, 2] ⟨7, 8⟩ = WireSend.raw [1, 2] := by
  constructor
  · have h := (c2_send_options_iff_ext_addr
      ⟨⟨7, 8⟩, 0, true, false, some sampleConn⟩ [9] [1, 2] ⟨7, 8⟩).1
    decide
  · exact (c2_send_options_iff_ext_addr sampleLockedEntry [9] [1, 2] ⟨7, 8⟩).2 rfl rfl

/-- The state of one AllocateRequest inherited from the StunRequest base:
the retransmission count and the terminal timeout flag. -/
structure AllocateRequestState where
  count : Nat
  timeout : Bool
deriving DecidableEq, Repr

/-- Modelled from the spec: a fresh STUN transaction starts with retry count 0
and the timeout flag clear (the StunRequest base class lives in stunrequest.cc,
which is not part of this repository; the spec indexes attempts from 0). -/
def AllocateRequest.initial : AllocateRequestState := ⟨0, false⟩

/-- AllocateRequest::GetNextDelay: delay = 100 * max(1 << count, 2), then
count += 1, and timeout becomes true when count reaches 5. -/
def AllocateRequest.GetNextDelay (s : AllocateRequestState) :
    Nat × AllocateRequestState :=
  let delay := 100 * max (2 ^ s.count) 2
  let c := s.count + 1
  (delay, { count := c, timeout := if c = 5 then true else s.timeout })

/-- The list of delays produced by n successive GetNextDelay calls, together
with the final request state. -/
def AllocateRequest.delays :
    Nat → AllocateRequestState → List Nat × AllocateRequestState
  | 0, s => ([], s)
  | Nat.succ n, s =>
    let p := AllocateRequest.GetNextDelay s
    let q := AllocateRequest.delays n p.2
    (p.1 :: q.1, q.2)

/-- Helper: after k GetNextDelay calls from count c, the count is c + k and
the timeout flag is set iff it was set before or the count passed through 5. -/
theorem allocate_delays_final (k c : Nat) (t : Bool) :
    (AllocateRequest.delays k ⟨c, t⟩).2.count = c + k ∧
    ((AllocateRequest.delays k ⟨c, t⟩).2.timeout = true ↔
      (t = true ∨ (c < 5 ∧ 5 ≤ c + k))) := by
  induction k generalizing c t with
  | zero =>
    constructor
    · rfl
    · constructor
      · intro h
        exact Or.inl h
      · intro h
        rcases h with h | h
        · exact h
        · omega
  | succ n ih =>
    have hstep : (AllocateRequest.GetNextDelay ⟨c, t⟩).2 =
        ⟨c + 1, if c + 1 = 5 then true else t⟩ := rfl
    have hd : AllocateRequest.delays (Nat.succ n) ⟨c, t⟩ =
        (((AllocateRequest.GetNextDelay ⟨c, t⟩).1 ::
            (AllocateRequest.delays n (AllocateRequest.GetNextDelay ⟨c, t⟩).2).1),
          (AllocateRequest.delays n (AllocateRequest.GetNextDelay ⟨c, t⟩).2).2) := rfl
    rw [hd, hstep]
    have ihx := ih (c + 1) (if c + 1 = 5 then true else t)
    constructor
    · rw [ihx.1]
      omega
    · rw [ihx.2]
      by_cases h5 : c + 1 = 5
      · simp [h5]
        omega
      · simp [h5]
        constructor
        · intro h
          rcases h with h | h
          · exact Or.inl h
          · exact Or.inr (by omega)
        · intro h
          rcases h with h | h
          · exact Or.inl h
          · exact Or.inr (by omega)

/-- C3: the successive delays of a fresh AllocateRequest are exactly
200, 200, 400, 800, 1600 ms; the n-th delay (0-indexed) is 100 * max(2, 2^n);
and the timeout flag is set exactly once the fifth delay has been produced. -/
theorem c3_allocate_retry_schedule :
    (AllocateRequest.delays 5 AllocateRequest.initial).1 =
        [200, 200, 400, 800, 1600] ∧
    (∀ (n : Nat) (t : Bool),
      (AllocateRequest.GetNextDelay ⟨n, t⟩).1 = 100 * max 2 (2 ^ n)) ∧
    (∀ k : Nat,
      ((AllocateRequest.delays k AllocateRequest.initial).2.timeout = true ↔
        5 ≤ k)) := by
  refine ⟨by decide, ?_, ?_⟩
  · intro n t
    show 100 * max (2 ^ n) 2 = 100 * max 2 (2 ^ n)
    rw [Nat.max_comm]
  · intro k
    have h := (allocate_delays_final k 0 false).2
    rw [show AllocateRequest.initial = (⟨0, false⟩ : AllocateRequestState) from rfl]
    rw [h]
    constructor
    · intro h2
      rcases h2 with h2 | h2
      · exact absurd h2 (by decide)
      · omega
    · intro h2
      exact Or.inr (by omega)

/-- RelayEntry::Connect. Socket creation is external: the oracle socketOk says
whether the factory returned a socket, and newSocketId identifies it. If
already connected, this is a no-op; if the server list is exhausted, it bails
out; otherwise the previous connection is disposed and, on socket creation
failure, a connect-timeout message is posted with zero delay, while on success
the new connection is installed and either the allocate request is sent (UDP)
or the soft-connect timer is started (TCP, SSLTCP). -/
def RelayEntry.Connect (servers : List ProtocolAddress) (s : RelayEntryState)
    (socketOk : Bool) (newSocketId : Nat) : RelayEntryState × List RelayAction :=
  if s.connected = true then
    (s, [])
  else
    match servers.get? s.server_index with
    | none => (s, [])
    | some ra =>
      if socketOk = false then
        ({ s with current_connection := none }, [RelayAction.postConnectTimeout 0])
      else
        let s1 := { s with current_connection := some ⟨newSocketId, ra⟩ }
        if ra.proto = ProtocolType.PROTO_TCP ∨ ra.proto = ProtocolType.PROTO_SSLTCP then
          (s1, [RelayAction.postConnectTimeout kSoftConnectTimeoutMs])
        else
          (s1, [RelayAction.sendAllocate 0])

/-- RelayEntry::HandleConnectFailure: ignore the failure unless the socket is
nil or matches the current connection; otherwise signal connect-failure,
advance server_index and call Connect again (whose socket-creation oracle is
passed through). -/
def RelayEntry.HandleConnectFailure (servers : List ProtocolAddress)
    (s : RelayEntryState) (socketId : Option Nat)
    (socketOk : Bool) (newSocketId : Nat) : RelayEntryState × List RelayAction :=
  let isCurrent : Bool :=
    match socketId with
    | none => true
    | some sid =>
      match s.current_connection with
      | some conn => sid = conn.socketId
      | none => false
  if isCurrent = true then
    let failActs : List RelayAction :=
      match s.current_connection with
      | some conn => [RelayAction.signalConnectFailure conn.protocolAddress]
      | none => []
    let p := RelayEntry.Connect servers { s with server_index := s.server_index + 1 }
      socketOk newSocketId
    (p.1, failActs ++ p.2)
  else
    (s, [])

/-- RelayEntry::OnMessage for kMessageConnectTimeout: if there is a current
connection, signal soft-timeout and treat its socket as failed; otherwise
hand a nil socket to HandleConnectFailure. -/
def RelayEntry.OnMessage (servers : List ProtocolAddress) (s : RelayEntryState)
    (socketOk : Bool) (newSocketId : Nat) : RelayEntryState × List RelayAction :=
  match s.current_connection with
  | some conn =>
    let p := RelayEntry.HandleConnectFailure servers s (some conn.socketId)
      socketOk newSocketId
    (p.1, RelayAction.signalSoftTimeout conn.protocolAddress :: p.2)
  | none => RelayEntry.HandleConnectFailure servers s none socketOk newSocketId

/-- RelayEntry::OnConnect: mark the entry connected and notify the port
(related address, external address with protocol UDP, set-ready). -/
def RelayEntry.OnConnect (s : RelayEntryState) (mapped : SocketAddress) :
    RelayEntryState × List RelayAction :=
  ({ s with connected := true },
   [RelayAction.setRelatedAddress mapped,
    RelayAction.addExternalAddress ⟨mapped, ProtocolType.PROTO_UDP⟩,
    RelayAction.setReady])

/-- RelayEntry::ScheduleKeepAlive: if there is a current connection, enqueue
another allocate request on it with delay kKeepAliveDelay. -/
def RelayEntry.ScheduleKeepAlive (s : RelayEntryState) : List RelayAction :=
  match s.current_connection with
  | some _ => [RelayAction.sendAllocate kKeepAliveDelay]
  | none => []

/-- AllocateRequest::OnResponse: if the response carries a MAPPED-ADDRESS with
family 1, call the entry's OnConnect with it; in every case, schedule a
keep-alive. -/
def AllocateRequest.OnResponse (s : RelayEntryState)
    (mapped : Option StunAddrAttr) : RelayEntryState × List RelayAction :=
  let p :=
    match mapped with
    | none => (s, [])
    | some a =>
      if a.family = 1 then RelayEntry.OnConnect s ⟨a.ip, a.port⟩ else (s, [])
  (p.1, p.2 ++ RelayEntry.ScheduleKeepAlive p.1)

/-- AllocateRequest::OnErrorResponse: the entry state is untouched; a
keep-alive is scheduled iff the elapsed wall-clock time since start_time is
within kRetryTimeout. -/
def AllocateRequest.OnErrorResponse (s : RelayEntryState) (elapsed : Nat) :
    RelayEntryState × List RelayAction :=
  (s, if elapsed ≤ kRetryTimeout then RelayEntry.ScheduleKeepAlive s else [])

/-- Events an entry can receive: internal Connect calls, address adoption by
the port, STUN transaction callbacks (which the request manager only fires for
packets matched on the current connection), timer messages, socket signals,
and inbound packets. Oracle fields carry the outcomes of external collaborators
(socket creation, socket ids, the STUN parse and the transaction match). -/
inductive EntryEvent where
  | connectCall (socketOk : Bool) (newSocketId : Nat)
  | setAddress (a : SocketAddress)
  | allocResponse (mapped : Option StunAddrAttr)
  | allocErrorResponse (elapsed : Nat)
  | allocTimeout (socketId : Nat) (socketOk : Bool) (newSocketId : Nat)
  | socketClose (socketId : Nat) (socketOk : Bool) (newSocketId : Nat)
  | connectTimeoutMsg (socketOk : Bool) (newSocketId : Nat)
  | socketConnect (socketId : Nat)
  | readPacket (socketId : Nat) (data : List Nat) (parsed : Option StunMsg)
      (isResponse : Bool)
deriving DecidableEq, Repr

/-- One step of the RelayEntry state machine. -/
def RelayEntry.step (servers : List ProtocolAddress) (s : RelayEntryState) :
    EntryEvent → RelayEntryState × List RelayAction
  | EntryEvent.connectCall ok nid => RelayEntry.Connect servers s ok nid
  | EntryEvent.setAddress a => ({ s with ext_addr := a }, [])
  | EntryEvent.allocResponse mapped =>
    match s.current_connection with
    | none => (s, [])
    | some _ => AllocateRequest.OnResponse s mapped
  | EntryEvent.allocErrorResponse elapsed =>
    match s.current_connection with
    | none => (s, [])
    | some _ => AllocateRequest.OnErrorResponse s elapsed
  | EntryEvent.allocTimeout sid ok nid =>
    RelayEntry.HandleConnectFailure servers s (some sid) ok nid
  | EntryEvent.socketClose sid ok nid =>
    RelayEntry.HandleConnectFailure servers s (some sid) ok nid
  | EntryEvent.connectTimeoutMsg ok nid => RelayEntry.OnMessage servers s ok nid
  | EntryEvent.socketConnect _ =>
    match s.current_connection with
    | some _ => (s, [RelayAction.sendAllocate 0])
    | none => (s, [])
  | EntryEvent.readPacket sid data parsed isResp =>
    RelayEntry.OnReadPacket s sid data (fun _ => parsed) (fun _ => isResp)

/-- Run the entry state machine over a list of events. -/
def RelayEntry.run (servers : List ProtocolAddress) (s : RelayEntryState) :
    List EntryEvent → RelayEntryState
  | [] => s
  | e :: rest => RelayEntry.run servers (RelayEntry.step servers s e).1 rest

/-- A freshly constructed RelayEntry: the given external address and server
index, not connected, not locked, no current connection. -/
def RelayEntry.mk0 (ext : SocketAddress) (sindex : Nat) : RelayEntryState :=
  ⟨ext, sindex, false, false, none⟩

/-- The entry invariant that survives arbitrary server behaviour:
a connected entry always has a current connection. -/
def EntryInv (s : RelayEntryState) : Prop :=
  s.connected = true → s.current_connection ≠ none

/-- Connect preserves the entry invariant. -/
theorem connect_inv (servers : List ProtocolAddress) (s : RelayEntryState)
    (ok : Bool) (nid : Nat) (h : EntryInv s) :
    EntryInv (RelayEntry.Connect servers s ok nid).1 := by
  obtain ⟨ea, si, c, l, cc⟩ := s
  cases c with
  | true => simpa [RelayEntry.Connect] using h
  | false =>
    unfold RelayEntry.Connect EntryInv
    cases hget : servers.get? si with
    | none => simp [hget]
    | some ra =>
      cases ok with
      | false => simp [hget]
      | true =>
        by_cases hp : ra.proto = ProtocolType.PROTO_TCP ∨
            ra.proto = ProtocolType.PROTO_SSLTCP
        · simp [hget, hp]
        · simp [hget, hp]

/-- HandleConnectFailure preserves the entry invariant. -/
theorem handleConnectFailure_inv (servers : List ProtocolAddress)
    (s : RelayEntryState) (sid : Option Nat) (ok : Bool) (nid : Nat)
    (h : EntryInv s) :
    EntryInv (RelayEntry.HandleConnectFailure servers s sid ok nid).1 := by
  have h1 : EntryInv { s with server_index := s.server_index + 1 } := by
    intro hcon
    exact h hcon
  unfold RelayEntry.HandleConnectFailure
  dsimp only
  split
  · exact connect_inv servers _ ok nid h1
  · exact h

/-- OnMessage (the connect-timeout message) preserves the entry invariant. -/
theorem onMessage_inv (servers : List ProtocolAddress) (s : RelayEntryState)
    (ok : Bool) (nid : Nat) (h : EntryInv s) :
    EntryInv (RelayEntry.OnMessage servers s ok nid).1 := by
  unfold RelayEntry.OnMessage
  cases hcc : s.current_connection with
  | none => exact handleConnectFailure_inv servers s none ok nid h
  | some conn => exact handleConnectFailure_inv servers s (some conn.socketId) ok nid h

/-- OnResponse leaves the current connection untouched. -/
theorem onResponse_current_connection (s : RelayEntryState)
    (mapped : Option StunAddrAttr) :
    (AllocateRequest.OnResponse s mapped).1.current_connection =
      s.current_connection := by
  unfold AllocateRequest.OnResponse RelayEntry.OnConnect
  cases mapped with
  | none => rfl
  | some a => by_cases hf : a.family = 1 <;> simp [hf]

/-- OnReadPacket changes neither connected nor the current connection. -/
theorem onReadPacket_fields (s : RelayEntryState) (sid : Nat) (data : List Nat)
    (msgRead : List Nat → Option StunMsg) (checkResponse : StunMsg → Bool) :
    (RelayEntry.OnReadPacket s sid data msgRead checkResponse).1.connected =
        s.connected ∧
    (RelayEntry.OnReadPacket s sid data msgRead checkResponse).1.current_connection =
        s.current_connection := by
  unfold RelayEntry.OnReadPacket
  repeat' split
  all_goals simp

/-- Every entry event preserves the entry invariant. -/
theorem step_inv (servers : List ProtocolAddress) (s : RelayEntryState)
    (e : EntryEvent) (h : EntryInv s) :
    EntryInv (RelayEntry.step servers s e).1 := by
  cases e with
  | connectCall ok nid => exact connect_inv servers s ok nid h
  | setAddress a =>
    intro hcon
    exact h hcon
  | allocResponse mapped =>
    unfold RelayEntry.step
    cases hcc : s.current_connection with
    | none => exact h
    | some conn =>
      intro _
      rw [onResponse_current_connection, hcc]
      simp
  | allocErrorResponse elapsed =>
    unfold RelayEntry.step
    cases hcc : s.current_connection with
    | none => exact h
    | some conn => exact h
  | allocTimeout sid ok nid => exact handleConnectFailure_inv servers s (some sid) ok nid h
  | socketClose sid ok nid => exact handleConnectFailure_inv servers s (some sid) ok nid h
  | connectTimeoutMsg ok nid => exact onMessage_inv servers s ok nid h
  | socketConnect sid =>
    unfold RelayEntry.step
    cases hcc : s.current_connection with
    | none => exact h
    | some conn => exact h
  | readPacket sid data parsed isResp =>
    intro hcon
    have hf := onReadPacket_fields s sid data (fun _ => parsed) (fun _ => isResp)
    rw [RelayEntry.step] at hcon ⊢
    rw [hf.1] at hcon
    rw [hf.2]
    exact h hcon

/-- Running any event list preserves the entry invariant. -/
theorem run_inv (servers : List ProtocolAddress) (events : List EntryEvent)
    (s : RelayEntryState) (h : EntryInv s) :
    EntryInv (RelayEntry.run servers s events) := by
  induction events generalizing s with
  | nil => exact h
  | cons e rest ih =>
    exact ih (RelayEntry.step servers s e).1 (step_inv servers s e h)

/-- C6 (amended): in every state of a RelayEntry reachable from construction,
over all sequences of connects, socket events and inbound packets including
arbitrary server-sent packets, connected implies that current_connection is
not none. (The locked-implies-connected and locked-implies-non-nil-ext_addr
parts of the original claim fail: see the counterexample.) -/
theorem c6_connected_implies_connection (servers : List ProtocolAddress)
    (events : List EntryEvent) (a : SocketAddress) (i : Nat)
    (hcon : (RelayEntry.run servers (RelayEntry.mk0 a i) events).connected = true) :
    (RelayEntry.run servers (RelayEntry.mk0 a i) events).current_connection ≠
      none := by
  have h0 : EntryInv (RelayEntry.mk0 a i) := by
    intro hc
    exact absurd hc (by simp [RelayEntry.mk0])
  exact run_inv servers events (RelayEntry.mk0 a i) h0 hcon

/-- Servers used by the C6 counterexample trace. -/
def cxServers : List ProtocolAddress :=
  [⟨⟨10, 3478⟩, ProtocolType.PROTO_UDP⟩, ⟨⟨11, 3478⟩, ProtocolType.PROTO_UDP⟩]

/-- A 28-byte packet whose bytes at offset 24 are the magic cookie. -/
def cookiePacket : List Nat := List.replicate 24 0 ++ TURN_MAGIC_COOKIE_VALUE

/-- A STUN SEND-RESPONSE carrying OPTIONS = 0x1, as a server may send it. -/
def cxSendResp : StunMsg := ⟨StunType.STUN_SEND_RESPONSE, some 1, none, none⟩

/-- The C6 counterexample trace: connect over UDP, receive an unsolicited
SEND-RESPONSE with OPTIONS bit 0 (locking the entry before any allocation
succeeded), then an allocate timeout whose failover hits a socket-creation
failure (clearing the current connection). -/
def cxEvents : List EntryEvent :=
  [EntryEvent.connectCall true 1,
   EntryEvent.readPacket 1 cookiePacket (some cxSendResp) false,
   EntryEvent.allocTimeout 1 false 2]

/-- C6 counterexample: a reachable entry state that is locked but not
connected, with a nil ext_addr and no current connection — refuting
locked ⇒ connected and locked ⇒ non-nil ext_addr (and locked ⇒ connection)
as stated in the claim. -/
theorem c6_counterexample_locked_not_connected :
    (RelayEntry.run cxServers (RelayEntry.mk0 SocketAddress.nilAddr 0)
        cxEvents).locked = true ∧
    (RelayEntry.run cxServers (RelayEntry.mk0 SocketAddress.nilAddr 0)
        cxEvents).connected = false ∧
    (RelayEntry.run cxServers (RelayEntry.mk0 SocketAddress.nilAddr 0)
        cxEvents).ext_addr.IsNil = true ∧
    (RelayEntry.run cxServers (RelayEntry.mk0 SocketAddress.nilAddr 0)
        cxEvents).current_connection = none := by
  decide

/-- Witness for the amended C6 theorem on a concrete happy-path trace. -/
theorem c6_connected_implies_connection_witness :
    (RelayEntry.run cxServers (RelayEntry.mk0 SocketAddress.nilAddr 0)
        [EntryEvent.connectCall true 1,
         EntryEvent.allocResponse (some ⟨1, 99, 40000⟩)]).connected = true ∧
    (RelayEntry.run cxServers (RelayEntry.mk0 SocketAddress.nilAddr 0)
        [EntryEvent.connectCall true 1,
         EntryEvent.allocResponse (some ⟨1, 99, 40000⟩)]).current_connection ≠
      none :=
  ⟨by decide,
   c6_connected_implies_connection cxServers
     [EntryEvent.connectCall true 1,
      EntryEvent.allocResponse (some ⟨1, 99, 40000⟩)]
     SocketAddress.nilAddr 0 (by decide)⟩

/-- C8: for every Allocate response, the entry's OnConnect runs iff the
response carries a MAPPED-ADDRESS attribute with family 1 (observable here as
the set-ready notification and the connected flag), and a keep-alive is
scheduled in every case; with the current connection present (which is how
responses are matched), the keep-alive enqueues an Allocate with delay
kKeepAliveDelay = 600000 ms. -/
theorem c8_on_response_keepalive (s : RelayEntryState)
    (mapped : Option StunAddrAttr)
    (hconn : s.current_connection ≠ none) :
    ((RelayAction.setReady ∈ (AllocateRequest.OnResponse s mapped).2 ∧
        (AllocateRequest.OnResponse s mapped).1.connected = true) ↔
      (∃ a, mapped = some a ∧ a.family = 1)) ∧
    RelayAction.sendAllocate kKeepAliveDelay ∈
      (AllocateRequest.OnResponse s mapped).2 ∧
    kKeepAliveDelay = 600000 := by
  have hka : RelayEntry.ScheduleKeepAlive s = [RelayAction.sendAllocate kKeepAliveDelay] := by
    unfold RelayEntry.ScheduleKeepAlive
    cases hcc : s.current_connection with
    | none => exact absurd hcc hconn
    | some conn => rfl
  refine ⟨?_, ?_, rfl⟩
  · cases mapped with
    | none =>
      unfold AllocateRequest.OnResponse
      simp [hka]
    | some a =>
      by_cases hf : a.family = 1
      · unfold AllocateRequest.OnResponse RelayEntry.OnConnect
        simp only [hf, if_true]
        constructor
        · intro _
          exact ⟨a, rfl, hf⟩
        · intro _
          simp
      · unfold AllocateRequest.OnResponse
        simp only [hf, if_false]
        simp [hka, hf]
  · cases mapped with
    | none =>
      unfold AllocateRequest.OnResponse
      simp [hka]
    | some a =>
      by_cases hf : a.family = 1
      · unfold AllocateRequest.OnResponse RelayEntry.OnConnect
        simp only [hf, if_true]
        have hka2 : RelayEntry.ScheduleKeepAlive { s with connected := true } =
            [RelayAction.sendAllocate kKeepAliveDelay] := by
          unfold RelayEntry.ScheduleKeepAlive
          cases hcc : s.current_connection with
          | none => exact absurd hcc hconn
          | some conn => rfl
        simp [hka2]
      · unfold AllocateRequest.OnResponse
        simp [hf, hka]

/-- Witness for C8 at a concrete response with a family-1 mapped address. -/
theorem c8_on_response_keepalive_witness :
    ((RelayAction.setReady ∈
        (AllocateRequest.OnResponse sampleLockedEntry (some ⟨1, 99, 40000⟩)).2 ∧
      (AllocateRequest.OnResponse sampleLockedEntry
          (some ⟨1, 99, 40000⟩)).1.connected = true) ↔
      (∃ a, (some ⟨1, 99, 40000⟩ : Option StunAddrAttr) = some a ∧ a.family = 1)) ∧
    RelayAction.sendAllocate kKeepAliveDelay ∈
      (AllocateRequest.OnResponse sampleLockedEntry (some ⟨1, 99, 40000⟩)).2 ∧
    kKeepAliveDelay = 600000 :=
  c8_on_response_keepalive sampleLockedEntry (some ⟨1, 99, 40000⟩) (by decide)

/-- C9: on a STUN error response the entry state is unchanged; with the
current connection present, a keep-alive (re-Allocate) is scheduled iff the
elapsed time since the request started is at most kRetryTimeout = 50000 ms,
and nothing at all happens when more time has elapsed. -/
theorem c9_error_response_retry_window (s : RelayEntryState) (elapsed : Nat)
    (hconn : s.current_connection ≠ none) :
    (AllocateRequest.OnErrorResponse s elapsed).1 = s ∧
    ((AllocateRequest.OnErrorResponse s elapsed).2 =
        [RelayAction.sendAllocate kKeepAliveDelay] ↔ elapsed ≤ kRetryTimeout) ∧
    (kRetryTimeout < elapsed → (AllocateRequest.OnErrorResponse s elapsed).2 = []) ∧
    kRetryTimeout = 50000 := by
  have hka : RelayEntry.ScheduleKeepAlive s = [RelayAction.sendAllocate kKeepAliveDelay] := by
    unfold RelayEntry.ScheduleKeepAlive
    cases hcc : s.current_connection with
    | none => exact absurd hcc hconn
    | some conn => rfl
  refine ⟨rfl, ?_, ?_, rfl⟩
  · unfold AllocateRequest.OnErrorResponse
    by_cases he : elapsed ≤ kRetryTimeout
    · simp [he, hka]
    · simp [he]
  · intro hlt
    unfold AllocateRequest.OnErrorResponse
    have he : ¬ elapsed ≤ kRetryTimeout := by omega
    simp [he]

/-- Witness for C9 at a concrete entry, within and beyond the retry window. -/
theorem c9_error_response_retry_window_witness :
    ((AllocateRequest.OnErrorResponse sampleLockedEntry 250).1 = sampleLockedEntry ∧
      ((AllocateRequest.OnErrorResponse sampleLockedEntry 250).2 =
          [RelayAction.sendAllocate kKeepAliveDelay] ↔ 250 ≤ kRetryTimeout) ∧
      (kRetryTimeout < 250 →
        (AllocateRequest.OnErrorResponse sampleLockedEntry 250).2 = []) ∧
      kRetryTimeout = 50000) ∧
    (AllocateRequest.OnErrorResponse sampleLockedEntry 50001).2 = [] :=
  ⟨c9_error_response_retry_window sampleLockedEntry 250 (by decide),
   (c9_error_response_retry_window sampleLockedEntry 50001 (by decide)).2.2.1
     (by decide)⟩

/-- SOCKET_ERROR as in the socket headers. -/
def SOCKET_ERROR : Int := -1

/-- EWOULDBLOCK errno (POSIX value on this platform). -/
def EWOULDBLOCK : Int := 11

/-- A RelayEntry together with oracles for its current socket: what the
socket's SendTo returns, what SetOption returns and what GetError reports. -/
structure EntryModel where
  state : RelayEntryState
  socketSendResult : Int
  socketSetOptionResult : Int
  socketError : Int
deriving DecidableEq, Repr

/-- RelayEntry::SendPacket / RelayConnection::Send as a number: the socket's
send result when a current connection exists, 0 otherwise. Both the raw and
the wrapped branch of RelayEntry::SendTo end in SendPacket, so this is the
numeric result of the entry's SendTo as well. -/
def EntryModel.sendResult (e : EntryModel) : Int :=
  match e.state.current_connection with
  | some _ => e.socketSendResult
  | none => 0

/-- RelayEntry::GetError: the socket's error when a current connection
exists, 0 otherwise. -/
def EntryModel.GetError (e : EntryModel) : Int :=
  match e.state.current_connection with
  | some _ => e.socketError
  | none => 0

/-- RelayEntry::SetSocketOption: the socket's SetOption result when a current
connection exists, 0 otherwise. -/
def EntryModel.SetSocketOption (e : EntryModel) : Int :=
  match e.state.current_connection with
  | some _ => e.socketSetOptionResult
  | none => 0

/-- The RelayPort state the port-level operations touch: the entry list, the
recorded options and the last error. -/
structure RelayPortState where
  entries : List EntryModel
  options : List (Nat × Int)
  error : Int
deriving DecidableEq, Repr

/-- The entry-selection loop of RelayPort::SendTo: the first nil-addressed
entry (when payload) or the first entry whose address equals addr wins;
returns the index and whether the nil entry adopts the address. -/
def RelayPort.findEntryLoop :
    List EntryModel → SocketAddress → Bool → Option (Nat × Bool)
  | [], _, _ => none
  | e :: rest, addr, payload =>
    if e.state.ext_addr.IsNil = true ∧ payload = true then
      some (0, true)
    else if e.state.ext_addr = addr then
      some (0, false)
    else
      match RelayPort.findEntryLoop rest addr payload with
      | some (i, b) => some (i + 1, b)
      | none => none

/-- Replace the ext_addr of the entry at index i (the set_address call on the
adopted nil entry). -/
def RelayPort.adoptAt (ents : List EntryModel) (i : Nat) (addr : SocketAddress) :
    List EntryModel :=
  match ents.get? i with
  | some e => ents.set i { e with state := { e.state with ext_addr := addr } }
  | none => ents

/-- The entry-selection and creation phase of RelayPort::SendTo: find an entry
(adopting addr on a nil-addressed one), or, when payload, create a new entry
seeded with the primary's server_index and started with Connect (socket
creation outcomes are oracles), appending it. Returns the updated entry list
and the index of the chosen entry, if any. -/
def RelayPort.chooseEntry (entries : List EntryModel) (addr : SocketAddress)
    (payload : Bool) (servers : List ProtocolAddress) (newSocketOk : Bool)
    (newSocketId : Nat) (newSendResult newSetOptionResult newSocketError : Int) :
    List EntryModel × Option Nat :=
  match RelayPort.findEntryLoop entries addr payload with
  | some (i, true) => (RelayPort.adoptAt entries i addr, some i)
  | some (i, false) => (entries, some i)
  | none =>
    if payload = true then
      let baseIdx :=
        match entries.head? with
        | some e0 => e0.state.server_index
        | none => 0
      let st1 := (RelayEntry.Connect servers (RelayEntry.mk0 addr baseIdx)
        newSocketOk newSocketId).1
      (entries ++ [⟨st1, newSendResult, newSetOptionResult, newSocketError⟩],
        some entries.length)
    else
      (entries, none)

/-- Whether the chosen entry (if any) is connected. -/
def RelayPort.chosenConnected (ents : List EntryModel) (sel : Option Nat) : Bool :=
  match sel with
  | some i =>
    match ents.get? i with
    | some e => e.state.connected
    | none => false
  | none => false

/-- RelayPort::SendTo: select or create an entry for addr; if the chosen
entry is not connected, fall back to entries[0]; if that is not connected
either, set error to EWOULDBLOCK and return SOCKET_ERROR; otherwise delegate
the send and return the user byte count (size) on success, or SOCKET_ERROR
with the entry's error on failure. -/
def RelayPort.SendTo (p : RelayPortState) (size : Nat) (addr : SocketAddress)
    (payload : Bool) (servers : List ProtocolAddress) (newSocketOk : Bool)
    (newSocketId : Nat) (newSendResult newSetOptionResult newSocketError : Int) :
    Int × RelayPortState :=
  let q := RelayPort.chooseEntry p.entries addr payload servers newSocketOk
    newSocketId newSendResult newSetOptionResult newSocketError
  let ents := q.1
  let chosen : Option EntryModel :=
    match q.2 with
    | some i => ents.get? i
    | none => none
  let sendOn : EntryModel → Int × RelayPortState := fun e =>
    if e.sendResult ≤ 0 then
      (SOCKET_ERROR, { p with entries := ents, error := e.GetError })
    else
      ((size : Int), { p with entries := ents })
  let fallback : Int × RelayPortState :=
    match ents.head? with
    | none => (SOCKET_ERROR, { p with entries := ents })
    | some e0 =>
      if e0.state.connected = true then
        sendOn e0
      else
        (SOCKET_ERROR, { p with entries := ents, error := EWOULDBLOCK })
  match chosen with
  | some e => if e.state.connected = true then sendOn e else fallback
  | none => fallback

/-- C4: for RelayPort::SendTo with chosen entries (ents, sel): when the
selected (or created) entry is not connected, the send falls back to
entries[0]; when entries[0] is not connected either, the error becomes
EWOULDBLOCK and SOCKET_ERROR is returned with no bytes sent; and any
non-error return value equals the caller's size argument (the user byte
count), not a wire size. -/
theorem c4_sendto_fallback_and_byte_count (p : RelayPortState) (size : Nat)
    (addr : SocketAddress) (payload : Bool) (servers : List ProtocolAddress)
    (ok : Bool) (nid : Nat) (nsr nsor nerr : Int)
    (ents : List EntryModel) (sel : Option Nat)
    (hchoose : RelayPort.chooseEntry p.entries addr payload servers ok nid
      nsr nsor nerr = (ents, sel)) :
    (RelayPort.chosenConnected ents sel = false →
      ∀ e0, ents.head? = some e0 → e0.state.connected = false →
        (RelayPort.SendTo p size addr payload servers ok nid nsr nsor nerr).1 =
            SOCKET_ERROR ∧
        (RelayPort.SendTo p size addr payload servers ok nid nsr nsor
            nerr).2.error = EWOULDBLOCK) ∧
    (RelayPort.chosenConnected ents sel = false →
      ∀ e0, ents.head? = some e0 → e0.state.connected = true →
        RelayPort.SendTo p size addr payload servers ok nid nsr nsor nerr =
          (if e0.sendResult ≤ 0 then
            (SOCKET_ERROR, { p with entries := ents, error := e0.GetError })
          else ((size : Int), { p with entries := ents }))) ∧
    ((RelayPort.SendTo p size addr payload servers ok nid nsr nsor nerr).1 ≠
        SOCKET_ERROR →
      (RelayPort.SendTo p size addr payload servers ok nid nsr nsor nerr).1 =
        (size : Int)) := by
  unfold RelayPort.SendTo
  simp only [hchoose]
  refine ⟨?_, ?_, ?_⟩
  · intro hcc e0 hh hc0
    have hfb : (match ents.head? with
        | none => (SOCKET_ERROR, { p with entries := ents })
        | some e0 =>
          if e0.state.connected = true then
            (if e0.sendResult ≤ 0 then
              (SOCKET_ERROR, { p with entries := ents, error := e0.GetError })
            else ((size : Int), { p with entries := ents }))
          else
            (SOCKET_ERROR, { p with entries := ents, error := EWOULDBLOCK })) =
        (SOCKET_ERROR, { p with entries := ents, error := EWOULDBLOCK }) := by
      rw [hh]
      simp [hc0]
    cases hsel : sel with
    | none =>
      simp only [hsel]
      rw [hfb]
      exact ⟨rfl, rfl⟩
    | some i =>
      cases hget : ents.get? i with
      | none =>
        simp only [hsel, hget]
        rw [hfb]
        exact ⟨rfl, rfl⟩
      | some e =>
        have hec : e.state.connected = false := by
          unfold RelayPort.chosenConnected at hcc
          simp only [hsel, hget] at hcc
          exact hcc
        simp only [hsel, hget, hec]
        simp only [Bool.false_eq_true, if_false]
        rw [hfb]
        exact ⟨rfl, rfl⟩
  · intro hcc e0 hh hc0
    have hfb : (match ents.head? with
        | none => (SOCKET_ERROR, { p with entries := ents })
        | some e0 =>
          if e0.state.connected = true then
            (if e0.sendResult ≤ 0 then
              (SOCKET_ERROR, { p with entries := ents, error := e0.GetError })
            else ((size : Int), { p with entries := ents }))
          else
            (SOCKET_ERROR, { p with entries := ents, error := EWOULDBLOCK })) =
        (if e0.sendResult ≤ 0 then
          (SOCKET_ERROR, { p with entries := ents, error := e0.GetError })
        else ((size : Int), { p with entries := ents })) := by
      rw [hh]
      simp [hc0]
    cases hsel : sel with
    | none =>
      simp only [hsel]
      rw [hfb]
    | some i =>
      cases hget : ents.get? i with
      | none =>
        simp only [hsel, hget]
        rw [hfb]
      | some e =>
        have hec : e.state.connected = false := by
          unfold RelayPort.chosenConnected at hcc
          simp only [hsel, hget] at hcc
          exact hcc
        simp only [hsel, hget, hec]
        simp only [Bool.false_eq_true, if_false]
        rw [hfb]
  · repeat' split
    all_goals intro hne
    all_goals first
      | rfl
      | (exfalso; exact hne rfl)

/-- A connected entry used by the C4 witness. -/
def c4Entry : EntryModel :=
  ⟨⟨⟨7, 8⟩, 0, true, false, some sampleConn⟩, 4, 0, 0⟩

/-- An unconnected primary entry used by the C4 witness. -/
def c4ColdEntry : EntryModel :=
  ⟨⟨SocketAddress.nilAddr, 0, false, false, none⟩, 0, 0, 0⟩

/-- Witness for C4: a send on a connected entry returns the user byte count;
a send with only unconnected entries returns SOCKET_ERROR with EWOULDBLOCK. -/
theorem c4_sendto_fallback_and_byte_count_witness :
    (RelayPort.SendTo ⟨[c4Entry], [], 0⟩ 6 ⟨7, 8⟩ false [] true 0 0 0 0).1 =
        (6 : Int) ∧
    (RelayPort.SendTo ⟨[c4ColdEntry], [], 0⟩ 6 ⟨9, 9⟩ false [] true 0 0 0 0).1 =
        SOCKET_ERROR ∧
    (RelayPort.SendTo ⟨[c4ColdEntry], [], 0⟩ 6 ⟨9, 9⟩ false [] true 0 0
        0 0).2.error = EWOULDBLOCK := by
  refine ⟨?_, ?_⟩
  · exact (c4_sendto_fallback_and_byte_count ⟨[c4Entry], [], 0⟩ 6 ⟨7, 8⟩ false []
      true 0 0 0 0 [c4Entry] (some 0) (by decide)).2.2 (by decide)
  · exact (c4_sendto_fallback_and_byte_count ⟨[c4ColdEntry], [], 0⟩ 6 ⟨9, 9⟩
      false [] true 0 0 0 0 [c4ColdEntry] none (by decide)).1 (by decide)
      c4ColdEntry rfl (by decide)

/-- The RelayPort lifecycle state the ready/candidate logic touches. -/
structure PortLifecycleState where
  ready : Bool
  external_addr : List ProtocolAddress
  candidates : List ProtocolAddress
  addressReadySignals : Nat
deriving DecidableEq, Repr

/-- RelayPort::SetReady: on the first call (ready still false) publish every
external address as a candidate, set ready and emit address-ready; afterwards
do nothing. -/
def RelayPort.SetReady (s : PortLifecycleState) : PortLifecycleState :=
  if s.ready = false then
    { s with
        candidates := s.candidates ++ s.external_addr
        ready := true
        addressReadySignals := s.addressReadySignals + 1 }
  else
    s

/-- RelayPort::PrepareAddress: kick off the primary entry's Connect (entry
effects modelled separately) and reset ready to false. -/
def RelayPort.PrepareAddress (s : PortLifecycleState) : PortLifecycleState :=
  { s with ready := false }

/-- RelayPort::AddExternalAddress: append unless an entry with the same
(address, proto) pair is already present. -/
def RelayPort.AddExternalAddress (s : PortLifecycleState) (pa : ProtocolAddress) :
    PortLifecycleState :=
  if s.external_addr.any (fun q =>
      decide (q.address = pa.address ∧ q.proto = pa.proto)) then
    s
  else
    { s with external_addr := s.external_addr ++ [pa] }

/-- Port-lifecycle operations. -/
inductive PortOp where
  | prepareAddress
  | setReady
  | addExternalAddress (pa : ProtocolAddress)
deriving DecidableEq, Repr

/-- Apply one port-lifecycle operation. -/
def RelayPort.applyOp (s : PortLifecycleState) : PortOp → PortLifecycleState
  | PortOp.prepareAddress => RelayPort.PrepareAddress s
  | PortOp.setReady => RelayPort.SetReady s
  | PortOp.addExternalAddress pa => RelayPort.AddExternalAddress s pa

/-- Run a list of port-lifecycle operations. -/
def RelayPort.runOps (s : PortLifecycleState) : List PortOp → PortLifecycleState
  | [] => s
  | op :: rest => RelayPort.runOps (RelayPort.applyOp s op) rest

/-- A freshly constructed RelayPort: not ready, no addresses, no signals. -/
def RelayPort.initialLifecycle : PortLifecycleState := ⟨false, [], [], 0⟩

/-- Helper invariant: the address-ready signal count is bounded by 1 once
ready, by 0 while not ready, and no operation other than PrepareAddress can
break that bound. -/
theorem runOps_signal_bound (ops : List PortOp) (s : PortLifecycleState)
    (hnp : PortOp.prepareAddress ∉ ops)
    (h : s.addressReadySignals ≤ (if s.ready = true then 1 else 0)) :
    (RelayPort.runOps s ops).addressReadySignals ≤
      (if (RelayPort.runOps s ops).ready = true then 1 else 0) := by
  induction ops generalizing s with
  | nil => exact h
  | cons op rest ih =>
    have hnp2 : PortOp.prepareAddress ∉ rest := fun hmem =>
      hnp (List.mem_cons_of_mem op hmem)
    cases op with
    | prepareAddress => exact absurd (List.mem_cons_self _ _) hnp
    | setReady =>
      refine ih _ hnp2 ?_
      unfold RelayPort.applyOp RelayPort.SetReady
      by_cases hr : s.ready = false
      · have h1 : s.addressReadySignals ≤ 0 := by
          rw [hr] at h
          simpa using h
        simp [hr]
        omega
      · simp only [if_neg hr]
        exact h
    | addExternalAddress pa =>
      refine ih _ hnp2 ?_
      unfold RelayPort.applyOp RelayPort.AddExternalAddress
      by_cases hd : s.external_addr.any (fun q =>
          decide (q.address = pa.address ∧ q.proto = pa.proto)) = true
      · simp only [hd, if_true]
        exact h
      · simp only [hd, if_false]
        exact h

/-- C5: over any operation sequence in which PrepareAddress is called exactly
once, as the initiating operation, the address-ready signal is emitted at
most once; and once the port is ready every further SetReady call is a
complete no-op (so external addresses are published as candidates only by the
first SetReady). -/
theorem c5_set_ready_at_most_once (ops : List PortOp)
    (hnp : PortOp.prepareAddress ∉ ops) :
    (RelayPort.runOps RelayPort.initialLifecycle
        (PortOp.prepareAddress :: ops)).addressReadySignals ≤ 1 ∧
    (∀ s : PortLifecycleState, s.ready = true → RelayPort.SetReady s = s) := by
  constructor
  · have h0 : (RelayPort.applyOp RelayPort.initialLifecycle
        PortOp.prepareAddress).addressReadySignals ≤
        (if (RelayPort.applyOp RelayPort.initialLifecycle
            PortOp.prepareAddress).ready = true then 1 else 0) := by
      unfold RelayPort.applyOp RelayPort.PrepareAddress RelayPort.initialLifecycle
      simp
    have h := runOps_signal_bound ops _ hnp h0
    rw [RelayPort.runOps] at *
    by_cases hr : (RelayPort.runOps (RelayPort.applyOp RelayPort.initialLifecycle
        PortOp.prepareAddress) ops).ready = true
    · rw [if_pos hr] at h
      exact h
    · rw [if_neg hr] at h
      omega
  · intro s hs
    unfold RelayPort.SetReady
    rw [hs]
    simp

/-- Witness for C5 on a concrete operation sequence with two SetReady calls. -/
theorem c5_set_ready_at_most_once_witness :
    (RelayPort.runOps RelayPort.initialLifecycle
        [PortOp.prepareAddress,
         PortOp.addExternalAddress ⟨⟨99, 40000⟩, ProtocolType.PROTO_UDP⟩,
         PortOp.setReady, PortOp.setReady]).addressReadySignals ≤ 1 :=
  (c5_set_ready_at_most_once
    [PortOp.addExternalAddress ⟨⟨99, 40000⟩, ProtocolType.PROTO_UDP⟩,
     PortOp.setReady, PortOp.setReady] (by decide)).1

/-- The loop body of RelayPort::SetOption, threading (result, error) through
the entries: a failing entry forces result to -1 and overwrites the stored
error with that entry's error. -/
def RelayPort.SetOptionLoop : List EntryModel → Int × Int → Int × Int
  | [], acc => acc
  | e :: rest, acc =>
    if e.SetSocketOption < 0 then
      RelayPort.SetOptionLoop rest (-1, e.GetError)
    else
      RelayPort.SetOptionLoop rest acc

/-- RelayPort::SetOption: run the loop over all entries, then record the
(option, value) pair. -/
def RelayPort.SetOption (p : RelayPortState) (opt : Nat) (value : Int) :
    Int × RelayPortState :=
  let r := RelayPort.SetOptionLoop p.entries (0, p.error)
  (r.1, { p with options := p.options ++ [(opt, value)], error := r.2 })

/-- The error of the last entry that fails to apply the option, if any. -/
def RelayPort.lastFailError : List EntryModel → Option Int
  | [] => none
  | e :: rest =>
    match RelayPort.lastFailError rest with
    | some v => some v
    | none => if e.SetSocketOption < 0 then some e.GetError else none

/-- Helper: the SetOption loop leaves (result, error) untouched when no entry
fails, and otherwise yields -1 and the last failing entry's error. -/
theorem setOptionLoop_spec (ents : List EntryModel) (r err : Int) :
    RelayPort.SetOptionLoop ents (r, err) =
      (match RelayPort.lastFailError ents with
       | some v => (-1, v)
       | none => (r, err)) := by
  induction ents generalizing r err with
  | nil => rfl
  | cons e rest ih =>
    unfold RelayPort.SetOptionLoop RelayPort.lastFailError
    by_cases hf : e.SetSocketOption < 0
    · simp only [hf, if_true]
      rw [ih]
      cases RelayPort.lastFailError rest with
      | none => simp
      | some v => simp
    · simp only [hf, if_false]
      rw [ih]
      cases RelayPort.lastFailError rest with
      | none => simp [hf]
      | some v => simp

/-- Entries used by the C7 counterexample: both fail SetOption, with distinct
socket errors 7 and 9. -/
def c7FailA : EntryModel := ⟨⟨⟨1, 1⟩, 0, false, false, some ⟨1, ⟨⟨10, 3478⟩, ProtocolType.PROTO_UDP⟩⟩⟩, 0, -1, 7⟩

/-- Second failing entry of the C7 counterexample (socket error 9). -/
def c7FailB : EntryModel := ⟨⟨⟨2, 2⟩, 0, false, false, some ⟨2, ⟨⟨10, 3478⟩, ProtocolType.PROTO_UDP⟩⟩⟩, 0, -1, 9⟩

/-- C7 counterexample: with two failing entries whose socket errors are 7 and
9, SetOption stores 9 — the error of the last failing entry, not the first
(whose error is 7). -/
theorem c7_counterexample_last_error_wins :
    (RelayPort.SetOption ⟨[c7FailA, c7FailB], [], 0⟩ 5 1).2.error = 9 ∧
    c7FailA.SetSocketOption < 0 ∧
    c7FailA.GetError = 7 ∧
    (9 : Int) ≠ 7 := by
  refine ⟨?_, by decide, by decide, by decide⟩
  decide

/-- Helper: lastFailError is populated exactly when some entry fails to
apply the option. -/
theorem lastFailError_isSome (ents : List EntryModel) :
    (RelayPort.lastFailError ents).isSome = true ↔
      ∃ e ∈ ents, e.SetSocketOption < 0 := by
  induction ents with
  | nil => simp [RelayPort.lastFailError]
  | cons e rest ih =>
    unfold RelayPort.lastFailError
    cases hrest : RelayPort.lastFailError rest with
    | some v =>
      rw [hrest] at ih
      simp only [Option.isSome_some, List.mem_cons] at ih ⊢
      constructor
      · intro _
        obtain ⟨x, hx, hfx⟩ := ih.mp trivial
        exact ⟨x, Or.inr hx, hfx⟩
      · intro _
        trivial
    | none =>
      rw [hrest] at ih
      simp only [Option.isSome_none] at ih
      by_cases hf : e.SetSocketOption < 0
      · simp only [hf, if_true, Option.isSome_some, List.mem_cons]
        constructor
        · intro _
          exact ⟨e, Or.inl rfl, hf⟩
        · intro _
          trivial
      · simp only [hf, if_false, Option.isSome_none, List.mem_cons]
        constructor
        · intro h
          exact absurd h (by decide)
        · intro h
          obtain ⟨x, hx, hfx⟩ := h
          rcases hx with hx | hx
          · subst hx
            exact absurd hfx hf
          · exfalso
            have hex : ∃ y ∈ rest, y.SetSocketOption < 0 := ⟨x, hx, hfx⟩
            have hfalse := ih.mpr hex
            exact absurd hfalse (by decide)

/-- C7 (amended): SetOption consults every entry (the result is -1 iff some
entry fails to apply the option, 0 otherwise), appends (opt, value) to the
recorded options, and when one or more entries fail the stored error is the
error of the LAST entry that failed (each failure overwrites the stored
error); with no failure the stored error is unchanged. -/
theorem c7_set_option_records_last_error (p : RelayPortState) (opt : Nat)
    (value : Int) :
    (RelayPort.SetOption p opt value).2.options = p.options ++ [(opt, value)] ∧
    ((RelayPort.SetOption p opt value).1 = -1 ↔
      ∃ e ∈ p.entries, e.SetSocketOption < 0) ∧
    ((RelayPort.SetOption p opt value).1 = 0 ∨
      (RelayPort.SetOption p opt value).1 = -1) ∧
    (RelayPort.SetOption p opt value).2.error =
      (RelayPort.lastFailError p.entries).getD p.error := by
  unfold RelayPort.SetOption
  rw [setOptionLoop_spec]
  cases hlast : RelayPort.lastFailError p.entries with
  | none =>
    have hno := lastFailError_isSome p.entries
    rw [hlast] at hno
    refine ⟨rfl, ?_, Or.inl rfl, rfl⟩
    constructor
    · intro h
      have h0 : (0 : Int) = -1 := h
      exact absurd h0 (by decide)
    · intro h
      have hs : (none : Option Int).isSome = true := hno.mpr h
      simp at hs
  | some v =>
    have hyes := lastFailError_isSome p.entries
    rw [hlast] at hyes
    refine ⟨rfl, ?_, Or.inr rfl, rfl⟩
    constructor
    · intro _
      exact hyes.mp rfl
    · intro _
      rfl

/-- Witness for the amended C7 theorem at a concrete two-entry port. -/
theorem c7_set_option_records_last_error_witness :
    (RelayPort.SetOption ⟨[c7FailA, c7FailB], [], 0⟩ 5 1).2.error =
      (RelayPort.lastFailError [c7FailA, c7FailB]).getD 0 :=
  (c7_set_option_records_last_error ⟨[c7FailA, c7FailB], [], 0⟩ 5 1).2.2.2
